import Mathlib

/-!
Verification development for the UnrealScript language service core:
symbol model, tree-builder (AST walker), index pass and diagnostics
analyzer, shallowly embedded from the TypeScript sources.
-/

namespace UCLS

/-! ## Enum building (documentASTWalker.visitEnumDecl)

`visitEnumDecl` walks the declared members in order, assigning
`memberSymbol.value = count++`, each member being prepended to the enum's
intrusive children list by `declare`; afterwards it prepends the
compiler-generated member `EnumCount` with `value = count`.
-/

/-- An enum member symbol: its name and its automatically assigned ordinal
(`UCEnumMemberSymbol.value`). -/
structure EnumMemberSym where
  name : String
  value : Nat
  deriving Repr, DecidableEq

/-- The member loop of `visitEnumDecl`: `memberSymbol.value = count++`, and
`declare` prepends each built member to the enum's children list
(`UCStructSymbol.addSymbol` does `symbol.next = this.children; this.children = symbol`). -/
def enumMemberLoop : List String → Nat → List EnumMemberSym → List EnumMemberSym × Nat
  | [], count, acc => (acc, count)
  | n :: rest, count, acc => enumMemberLoop rest (count + 1) (⟨n, count⟩ :: acc)

/-- `visitEnumDecl`: runs the member loop from `count = 0` over the declared
member names, then declares the synthesized `EnumCount` member with
`value = count`.  The result is the enum's children list in intrusive order
(head = most recently declared). -/
def visitEnumDecl (memberNames : List String) : List EnumMemberSym :=
  let r := enumMemberLoop memberNames 0 []
  ⟨"EnumCount", r.2⟩ :: r.1

theorem enumMemberLoop_spec (ms : List String) (count : Nat) (acc : List EnumMemberSym) :
    enumMemberLoop ms count acc =
      (((ms.enumFrom count).map (fun p => EnumMemberSym.mk p.2 p.1)).reverse ++ acc,
        count + ms.length) := by
  induction ms generalizing count acc with
  | nil => simp [enumMemberLoop, List.enumFrom]
  | cons n rest ih =>
    simp only [enumMemberLoop, ih, List.enumFrom, List.map_cons, List.reverse_cons,
      List.append_assoc, List.singleton_append, List.length_cons]
    congr 1
    omega

/-- C2: building an enum assigns each declared member a zero-based ordinal in
declaration order and then appends one compiler-synthesized trailing member
(`EnumCount`) whose ordinal equals the count of declared members; in
particular `enum E { A, B, C }` yields `A=0, B=1, C=2` plus a sentinel member
with value `3`.  (The children list is intrusive, newest-first, so declaration
order is its reverse.) -/
theorem enum_build_ordinals :
    (∀ memberNames : List String,
        (visitEnumDecl memberNames).reverse =
          (memberNames.enumFrom 0).map (fun p => EnumMemberSym.mk p.2 p.1)
            ++ [EnumMemberSym.mk "EnumCount" memberNames.length])
    ∧ visitEnumDecl ["A", "B", "C"] =
        [⟨"EnumCount", 3⟩, ⟨"C", 2⟩, ⟨"B", 1⟩, ⟨"A", 0⟩] := by
  constructor
  · intro ms
    simp [visitEnumDecl, enumMemberLoop_spec]
  · rfl

/-! ## Method parameter & operator analysis (DocumentAnalyzer.visitMethod)

The analyzer loops `requiredParamsCount` from 0; upon hitting the first
`optional` parameter it reports every subsequent parameter that is not
optional and breaks, then stores `requiredParamsCount` on the method.
Operator methods must be final; binary operators need exactly 2 parameters
and a (truthy) precedence within 0-255.
-/

/-- A parameter symbol, with its `isOptional()` modifier bit. -/
structure ParamSym where
  name : String
  optional : Bool
  deriving Repr, DecidableEq

/-- Diagnostics emitted by `DocumentAnalyzer.visitMethod`. -/
inductive MethodDiag where
  /-- "Parameter '…' must be marked 'optional' after an optional parameter." -/
  | paramMustBeOptional (name : String)
  /-- "Operator must be declared as 'final'." -/
  | operatorMustBeFinal
  /-- "An operator is required to have a total of 2 parameters." -/
  | operatorParamCount
  /-- "Operator must have a precedence." -/
  | operatorMissingPrecedence
  /-- "Operator precedence must be between 0-255." -/
  | operatorPrecedenceRange
  deriving Repr, DecidableEq

/-- The `visitMethod` parameter loop: the outer loop advances
`requiredParamsCount` until the first optional parameter; there the inner
loop adds a diagnostic for every later parameter that is not optional
(`continue` on optional ones) and the outer loop breaks.  Returns the
diagnostics and the final `requiredParamsCount`. -/
def paramLoop : List ParamSym → Nat → List MethodDiag × Nat
  | [], n => ([], n)
  | p :: rest, n =>
    if p.optional then
      ((rest.filter (fun q => !q.optional)).map (fun q => .paramMustBeOptional q.name), n)
    else paramLoop rest (n + 1)

/-- Index of the first element satisfying `p` (specification-side helper). -/
def firstIdxWhere (p : α → Bool) : List α → Option Nat
  | [] => none
  | a :: l => if p a then some 0 else (firstIdxWhere p l).map (· + 1)

/-- A method symbol as seen by `DocumentAnalyzer.visitMethod`:
`params` (optional array), whether `getKind()` is `SymbolKind.Operator`,
whether it is an instance of `UCBinaryOperatorSymbol`, its `isFinal()` bit,
and its `precedence` field (set by the tree builder only when truthy). -/
structure MethodSym where
  name : String
  params : Option (List ParamSym)
  kindIsOperator : Bool
  isBinaryOperator : Bool
  final : Bool
  precedence : Option Int
  deriving Repr, DecidableEq

/-- The operator block of `DocumentAnalyzer.visitMethod`: a non-final
operator gets `operatorMustBeFinal`; a binary operator additionally needs
exactly two parameters, and a precedence that is truthy (JS:
`!symbol.precedence` holds for both `undefined` and `0`) and within
`[0, 255]`. -/
def operatorDiags (m : MethodSym) : List MethodDiag :=
  if m.kindIsOperator then
    (if !m.final then [.operatorMustBeFinal] else [])
    ++ (if m.isBinaryOperator then
          (match m.params with
           | none => [.operatorParamCount]
           | some ps => if ps.length != 2 then [.operatorParamCount] else [])
          ++ (match m.precedence with
              | none => [.operatorMissingPrecedence]
              | some v =>
                if v == 0 then [.operatorMissingPrecedence]
                else if v < 0 || v > 255 then [.operatorPrecedenceRange]
                else [])
        else [])
  else []

/-- `DocumentAnalyzer.visitMethod`: the parameter pass (when `params` is
present), then the operator rules.  Returns the diagnostics in emission
order and the stored `requiredParamsCount` (absent when `params` is
absent). -/
def visitMethod (m : MethodSym) : List MethodDiag × Option Nat :=
  let pr : List MethodDiag × Option Nat :=
    match m.params with
    | some ps => ((paramLoop ps 0).1, some (paramLoop ps 0).2)
    | none => ([], none)
  (pr.1 ++ operatorDiags m, pr.2)

/-- `visitFunctionDecl` stores a parsed operator precedence on the symbol
only when it is truthy: `if (precedence) { symbol.precedence = precedence; }`,
so a declared precedence of `0` is never stored. -/
def walkerStorePrecedence (parsed : Option Int) : Option Int :=
  match parsed with
  | some v => if v != 0 then some v else none
  | none => none

theorem paramLoop_eq (ps : List ParamSym) (n : Nat) :
    paramLoop ps n =
      ((match firstIdxWhere (fun p => p.optional) ps with
        | some k => ((ps.drop (k + 1)).filter (fun q => !q.optional)).map
            (fun q => MethodDiag.paramMustBeOptional q.name)
        | none => []),
       n + (firstIdxWhere (fun p => p.optional) ps).getD ps.length) := by
  induction ps generalizing n with
  | nil => simp [paramLoop, firstIdxWhere]
  | cons p rest ih =>
    by_cases h : p.optional
    · simp [paramLoop, firstIdxWhere, h]
    · cases hfi : firstIdxWhere (fun p => p.optional) rest with
      | none =>
        simp only [paramLoop, h, Bool.false_eq_true, if_false, ih, hfi, Option.map_none',
          Option.getD_none, firstIdxWhere, List.length_cons]
        congr 1
        omega
      | some k =>
        simp only [paramLoop, h, Bool.false_eq_true, if_false, ih, hfi, Option.map_some',
          Option.getD_some, firstIdxWhere, List.drop_succ_cons]
        congr 1
        omega

/-- The concrete method `function f(optional int a, int b)` of the claim. -/
def methodOptAThenB : MethodSym :=
  { name := "f", params := some [⟨"a", true⟩, ⟨"b", false⟩],
    kindIsOperator := false, isBinaryOperator := false,
    final := false, precedence := none }

/-- C3 (counterexample): for the method `(optional int a, int b)` of the
claim, the first optional parameter sits at index `0`, so the analyzer breaks
out of the counting loop there and stores `requiredParamsCount = 0`, not `1`
as claimed (it does flag exactly parameter `b`). -/
theorem method_requiredParamsCount_not_one :
    visitMethod methodOptAThenB = ([.paramMustBeOptional "b"], some 0)
    ∧ (visitMethod methodOptAThenB).2 ≠ some 1 := by
  exact ⟨rfl, by decide⟩

/-- C3 (amended): in the analyzed parameter list, every non-optional parameter
after the first optional one is flagged (so in particular the first violation
of the trailing-optional rule is reported), and `requiredParamsCount` is the
index of the first optional parameter (or the parameter count when none is
optional); the method `(optional int a, int b)` flags exactly `b` and gets
`requiredParamsCount = 0`, the index of its first optional parameter. -/
theorem method_trailing_optional_params :
    (∀ ps : List ParamSym,
        (paramLoop ps 0).2 = (firstIdxWhere (fun p => p.optional) ps).getD ps.length
      ∧ (paramLoop ps 0).1 =
          (match firstIdxWhere (fun p => p.optional) ps with
           | some k => ((ps.drop (k + 1)).filter (fun q => !q.optional)).map
               (fun q => MethodDiag.paramMustBeOptional q.name)
           | none => []))
    ∧ visitMethod methodOptAThenB = ([.paramMustBeOptional "b"], some 0) := by
  refine ⟨fun ps => ?_, by rfl⟩
  rw [paramLoop_eq]
  exact ⟨by simp, rfl⟩

theorem paramLoop_only_param_diags (ps : List ParamSym) (n : Nat) :
    ∀ d ∈ (paramLoop ps n).1, ∃ s, d = MethodDiag.paramMustBeOptional s := by
  rw [paramLoop_eq]
  cases firstIdxWhere (fun p => p.optional) ps with
  | none => simp
  | some k =>
    intro d hd
    simp only [List.mem_map] at hd
    obtain ⟨q, _, hq⟩ := hd
    exact ⟨q.name, hq.symm⟩

/-! ## Operator method rules (DocumentAnalyzer.visitMethod, operator part) -/

/-- The concrete binary operator of the C5 counterexample: declared `final`,
with two parameters and a written precedence of `0` (which `visitFunctionDecl`
drops, `0` being falsy). -/
def binaryOpPrecZero : MethodSym :=
  { name := "+", params := some [⟨"x", false⟩, ⟨"y", false⟩],
    kindIsOperator := true, isBinaryOperator := true,
    final := true, precedence := walkerStorePrecedence (some 0) }

/-- C5 (counterexample): a final binary operator with exactly two parameters
and a declared precedence of `0` — a value inside the claimed legal range
`[0, 255]` — still gets a diagnostic: the tree builder never stores a falsy
precedence, so the analyzer reports "Operator must have a precedence". -/
theorem operator_precedence_zero_flagged :
    (0 : Int) ≥ 0 ∧ (0 : Int) ≤ 255
    ∧ (visitMethod binaryOpPrecZero).1 = [.operatorMissingPrecedence] := by
  exact ⟨by decide, by decide, rfl⟩

theorem visitMethod_count_opDiag (m : MethodSym) (d : MethodDiag)
    (hd : ∀ s, d ≠ MethodDiag.paramMustBeOptional s) :
    (visitMethod m).1.count d = (operatorDiags m).count d := by
  have hzero : ∀ ps : List ParamSym, ((paramLoop ps 0).1.count d) = 0 := by
    intro ps
    rw [List.count_eq_zero]
    intro hmem
    obtain ⟨s, hs⟩ := paramLoop_only_param_diags ps 0 d hmem
    exact hd s hs
  cases hps : m.params with
  | none => simp [visitMethod, hps]
  | some ps => simp [visitMethod, hps, List.count_append, hzero]

/-- C5 (amended): an operator not marked `final` produces exactly one
"must be final" diagnostic and a final operator produces none; a binary
operator must declare exactly two parameters, and a precedence that is
present, nonzero and in `[0, 255]` (a declared precedence of `0` is falsy,
is never stored by the tree builder, and is reported as a missing
precedence) — each violation producing its own diagnostic. -/
theorem operator_rules (m : MethodSym) (hop : m.kindIsOperator = true) :
    ((visitMethod m).1.count .operatorMustBeFinal = if m.final then 0 else 1)
    ∧ (m.isBinaryOperator = true →
        ((visitMethod m).1.count .operatorParamCount =
          (match m.params with
           | some ps => if ps.length = 2 then 0 else 1
           | none => 1))
      ∧ ((visitMethod m).1.count .operatorMissingPrecedence =
          (match m.precedence with
           | none => 1
           | some v => if v = 0 then 1 else 0))
      ∧ ((visitMethod m).1.count .operatorPrecedenceRange =
          (match m.precedence with
           | none => 0
           | some v => if v ≠ 0 ∧ (v < 0 ∨ v > 255) then 1 else 0))) := by
  have hfin := visitMethod_count_opDiag m .operatorMustBeFinal (by intro s h; cases h)
  have hpc := visitMethod_count_opDiag m .operatorParamCount (by intro s h; cases h)
  have hmp := visitMethod_count_opDiag m .operatorMissingPrecedence (by intro s h; cases h)
  have hpr := visitMethod_count_opDiag m .operatorPrecedenceRange (by intro s h; cases h)
  obtain ⟨nm, params, kop, kbin, fin, prec⟩ := m
  simp only at hop
  subst hop
  refine ⟨?_, fun hbin => ?_⟩
  · rw [hfin]
    simp only [operatorDiags]
    cases fin <;> cases kbin <;> cases params <;> cases prec <;>
      simp [List.count_append, List.count_cons] <;> split_ifs <;>
        simp_all
  · simp only at hbin
    subst hbin
    refine ⟨?_, ?_, ?_⟩ <;>
      [rw [hpc]; rw [hmp]; rw [hpr]] <;>
      simp only [operatorDiags] <;>
      cases fin <;> cases params <;> cases prec <;>
        simp [List.count_append, List.count_cons] <;> split_ifs <;>
          simp_all

/-- Witness for `operator_rules`: a non-final binary operator with one
parameter and precedence 300 trips every rule at once. -/
theorem operator_rules_witness :
    (MethodSym.mk "+" (some [⟨"x", false⟩]) true true false (some 300)).kindIsOperator = true
    ∧ ((visitMethod (MethodSym.mk "+" (some [⟨"x", false⟩]) true true false (some 300))).1.count
        MethodDiag.operatorMustBeFinal = 1) := by
  have h := operator_rules (MethodSym.mk "+" (some [⟨"x", false⟩]) true true false (some 300)) rfl
  exact ⟨rfl, by rw [h.1]; rfl⟩

/-! ## Fixed-size array property analysis (DocumentAnalyzer.visitProperty)

`visitProperty` checks a fixed-size array declaration: `const arraySize =
symbol.getArrayDimSize(); if (!arraySize) { bad-size } else if
(arraySize > 2048 || arraySize <= 1) { illegal-size }`, then — under
`config.checkTypes`, when the declared type resolved to `PredefinedBool`
or `NativeArray` — an illegal-type error.  Note the JS falsiness: a size
of `0` takes the `!arraySize` branch.
-/

/-- Diagnostics emitted by `DocumentAnalyzer.visitProperty`. -/
inductive PropDiag where
  /-- "Bad array size, try refer to a type that can be evaulated to an integer!" -/
  | badArraySize
  /-- "Illegal array size, must be between 2-2048" -/
  | illegalArraySize
  /-- "Illegal array type '…'" -/
  | illegalArrayType
  deriving Repr, DecidableEq

/-- A property symbol as seen by `visitProperty`: whether it is a fixed
array with a recorded `arrayDimRange`, the result of `getArrayDimSize()`
(`none` when the size expression cannot be evaluated to an integer), and
whether its declared type is present and resolved to `PredefinedBool` or
`NativeArray`. -/
structure PropSym where
  isFixedArray : Bool
  hasArrayDimRange : Bool
  arrayDimSize : Option Int
  hasType : Bool
  typeIsBoolOrNativeArray : Bool
  deriving Repr, DecidableEq

/-- `DocumentAnalyzer.visitProperty` (fixed-array part): the size check
(`!arraySize` is true for both an unresolvable size and a size of `0`),
then the element-type check. -/
def visitProperty (checkTypes : Bool) (p : PropSym) : List PropDiag :=
  if p.isFixedArray && p.hasArrayDimRange then
    (match p.arrayDimSize with
     | none => [.badArraySize]
     | some n =>
       if n == 0 then [.badArraySize]
       else if n > 2048 || n ≤ 1 then [.illegalArraySize]
       else [])
    ++ (if checkTypes && p.hasType && p.typeIsBoolOrNativeArray
        then [.illegalArrayType] else [])
  else []

/-- A fixed-size array property with the given size result and element-type
classification. -/
def fixedArrayProp (size : Option Int) (boolOrNative : Bool) : PropSym :=
  { isFixedArray := true, hasArrayDimRange := true, arrayDimSize := size,
    hasType := true, typeIsBoolOrNativeArray := boolOrNative }

/-- C4 (counterexample): the three claimed violation kinds do not map to
distinct errors.  A declared size of `0` produces the same "bad array size"
diagnostic as an unresolvable size (JS zero-falsiness sends it into the
`!arraySize` branch), while a size of `1` — the other member of the claimed
"0 or 1" kind — produces the range diagnostic. -/
theorem fixed_array_size_zero_shares_error :
    visitProperty true (fixedArrayProp (some 0) false) = [.badArraySize]
    ∧ visitProperty true (fixedArrayProp none false) = [.badArraySize]
    ∧ visitProperty true (fixedArrayProp (some 1) false) = [.illegalArraySize]
    ∧ visitProperty true (fixedArrayProp (some 0) false)
        ≠ visitProperty true (fixedArrayProp (some 1) false) := by
  exact ⟨rfl, rfl, rfl, by decide⟩

/-- C4 (amended): every size violation produces exactly one diagnostic — an
unresolvable size and a size of `0` produce the bad-size diagnostic (`0`
being falsy is folded into the unresolvable branch), a nonzero size that is
`≤ 1` or `> 2048` produces the range diagnostic — a size in `[2, 2048]`
(such as `5`) produces none, and a fixed array whose element type resolves
to `bool` or the native array type additionally gets exactly one
illegal-array-type diagnostic. -/
theorem fixed_array_size_rules :
    (∀ n : Int, n ≠ 0 → (n ≤ 1 ∨ n > 2048) →
        visitProperty true (fixedArrayProp (some n) false) = [.illegalArraySize])
    ∧ visitProperty true (fixedArrayProp (some 0) false) = [.badArraySize]
    ∧ visitProperty true (fixedArrayProp none false) = [.badArraySize]
    ∧ (∀ n : Int, 2 ≤ n → n ≤ 2048 →
        visitProperty true (fixedArrayProp (some n) false) = [])
    ∧ visitProperty true (fixedArrayProp (some 5) false) = []
    ∧ (∀ size, visitProperty true (fixedArrayProp size true) =
        visitProperty true (fixedArrayProp size false) ++ [.illegalArrayType]) := by
  refine ⟨?_, rfl, rfl, ?_, rfl, ?_⟩
  · intro n h0 hr
    simp only [visitProperty, fixedArrayProp, Bool.and_self, if_true]
    have hb : (n == 0) = false := by simp [h0]
    have hval : (decide (n > 2048) || decide (n ≤ 1)) = true := by
      rcases hr with h | h <;> simp [h]
    simp [hb, hval]
  · intro n h2 h2048
    simp only [visitProperty, fixedArrayProp, Bool.and_self, if_true]
    have hb : (n == 0) = false := by
      simp only [beq_eq_false_iff_ne, ne_eq]
      omega
    have hval : (decide (n > 2048) || decide (n ≤ 1)) = false := by
      simp only [Bool.or_eq_false_iff, decide_eq_false_iff_not, not_lt, not_le]
      omega
    simp [hb, hval]
  · intro size
    cases size with
    | none => rfl
    | some n =>
      simp only [visitProperty, fixedArrayProp, Bool.and_self, if_true, Bool.and_true,
        Bool.and_false, Bool.false_and, if_false]
      split <;> simp

/-- Witness for `fixed_array_size_rules`: sizes 3000 (range violation) and
5 (legal) instantiate the two quantified clauses. -/
theorem fixed_array_size_rules_witness :
    ((3000 : Int) ≠ 0 ∧ ((3000 : Int) ≤ 1 ∨ (3000 : Int) > 2048)
      ∧ visitProperty true (fixedArrayProp (some 3000) false) = [.illegalArraySize])
    ∧ ((2 : Int) ≤ 5 ∧ (5 : Int) ≤ 2048
      ∧ visitProperty true (fixedArrayProp (some 5) false) = []) := by
  refine ⟨⟨by decide, by decide, ?_⟩, ⟨by decide, by decide, ?_⟩⟩
  · exact fixed_array_size_rules.1 3000 (by decide) (by decide)
  · exact fixed_array_size_rules.2.2.2.1 5 (by decide) (by decide)

/-! ## Class declarations in the tree builder (DocumentASTWalker.visitClassDecl)

`visitClassDecl` refuses a second class declaration: when `document.class`
is already set it pushes a `SyntaxErrorNode` and returns `undefined`.
Otherwise it creates the class symbol, assigns `document.class` *before any
further parsing*, adds it to the document's symbol table, declares it into
the package scope and pushes it onto the scope stack; the walker then
descends into the class-body member declarations.
-/

/-- Diagnostic nodes pushed by the tree builder. -/
inductive DocDiag where
  /-- `SyntaxErrorNode` "Cannot declare a class within another class!" -/
  | classInClassError
  deriving Repr, DecidableEq

/-- The document state touched by `visitClassDecl`: the `class` slot, the
diagnostic `nodes` sink, and the flat top-level symbol table. -/
structure DocState where
  klass : Option Nat
  nodes : List DocDiag
  symbols : List Nat
  deriving Repr, DecidableEq

/-- Observable steps of building a class declaration, in execution order. -/
inductive WalkEvent where
  | errorNodeAdded
  | classAssigned (id : Nat)
  | docSymbolAdded (id : Nat)
  | declaredToScope (id : Nat)
  | scopePushed (id : Nat)
  | memberVisited (m : Nat)
  deriving Repr, DecidableEq

/-- Result of walking a class declaration. -/
structure WalkResult where
  doc : DocState
  scopes : List Nat
  result : Option Nat
  events : List WalkEvent
  deriving Repr, DecidableEq

/-- `DocumentASTWalker.visitClassDecl`: duplicate class declarations push a
syntax-error node and return `undefined`; otherwise the class symbol is
created, `document.class` is assigned (before further parsing), the symbol
is added to the document and declared into the current (package) scope, and
the class is pushed onto the scope stack. -/
def visitClassDecl (doc : DocState) (scopes : List Nat) (newId : Nat) : WalkResult :=
  match doc.klass with
  | some _ =>
    { doc := { doc with nodes := doc.nodes ++ [DocDiag.classInClassError] },
      scopes := scopes, result := none,
      events := [.errorNodeAdded] }
  | none =>
    { doc := { klass := some newId, nodes := doc.nodes, symbols := doc.symbols ++ [newId] },
      scopes := scopes ++ [newId], result := some newId,
      events := [.classAssigned newId, .docSymbolAdded newId,
                 .declaredToScope newId, .scopePushed newId] }

/-- The walker driver around `visitClassDecl`: class-body member
declarations are visited only when the declaration was accepted (a
discarded declaration is not compiled further). -/
def walkClassDecl (doc : DocState) (scopes : List Nat) (newId : Nat)
    (body : List Nat) : WalkResult :=
  let r := visitClassDecl doc scopes newId
  match r.result with
  | none => r
  | some _ => { r with events := r.events ++ body.map .memberVisited }

/-- C9: only one class declaration is permitted per document.  With the
class slot already set, walking another class declaration records exactly
one hard syntax-error node, leaves the class slot, symbol table and scope
stack unchanged, returns no symbol, and compiles no body member.  With the
slot empty, the document's class field is assigned first — before the
symbol is declared or the walker descends into any class-body member. -/
theorem single_class_per_document (doc : DocState) (scopes : List Nat)
    (newId : Nat) (body : List Nat) :
    (doc.klass.isSome →
        (walkClassDecl doc scopes newId body).doc.nodes
            = doc.nodes ++ [DocDiag.classInClassError]
      ∧ (walkClassDecl doc scopes newId body).doc.klass = doc.klass
      ∧ (walkClassDecl doc scopes newId body).doc.symbols = doc.symbols
      ∧ (walkClassDecl doc scopes newId body).scopes = scopes
      ∧ (walkClassDecl doc scopes newId body).result = none
      ∧ ∀ m, WalkEvent.memberVisited m ∉ (walkClassDecl doc scopes newId body).events)
    ∧ (doc.klass = none →
        (walkClassDecl doc scopes newId body).doc.klass = some newId
      ∧ (walkClassDecl doc scopes newId body).doc.nodes = doc.nodes
      ∧ (walkClassDecl doc scopes newId body).events.head? = some (.classAssigned newId)
      ∧ (walkClassDecl doc scopes newId body).events
          = [.classAssigned newId, .docSymbolAdded newId,
             .declaredToScope newId, .scopePushed newId] ++ body.map .memberVisited) := by
  constructor
  · intro hset
    obtain ⟨c, hc⟩ := Option.isSome_iff_exists.mp hset
    simp [walkClassDecl, visitClassDecl, hc]
  · intro hnone
    simp [walkClassDecl, visitClassDecl, hnone]

/-- Witness for `single_class_per_document`: a document whose class slot
holds symbol `7` rejects a second class declaration; an empty document
accepts one. -/
theorem single_class_per_document_witness :
    ((DocState.mk (some 7) [] [7]).klass.isSome
      ∧ (walkClassDecl (DocState.mk (some 7) [] [7]) [0] 9 [1, 2]).result = none)
    ∧ ((DocState.mk none [] []).klass = none
      ∧ (walkClassDecl (DocState.mk none [] []) [0] 9 [1, 2]).doc.klass = some 9) := by
  refine ⟨⟨by decide, ?_⟩, ⟨rfl, ?_⟩⟩
  · exact ((single_class_per_document (DocState.mk (some 7) [] [7]) [0] 9 [1, 2]).1
      (by decide)).2.2.2.2.1
  · exact ((single_class_per_document (DocState.mk none [] []) [0] 9 [1, 2]).2 rfl).1

/-! ## The index pass over structural symbols (UCStructSymbol.index,
UCClassSymbol.index, UCDocumentClassSymbol.index)

`UCStructSymbol.index` indexes `extendsType` first and assigns `super` from
its resolved reference only when `super` was not already set; with a
non-empty children list it then indexes the `types` side-table entries
(nested structs/enums) before the remaining children, iterating the
intrusive children list from its head (most recently declared first) and
skipping the nested types; finally it indexes the script block.
-/

/-- A type-reference symbol (`UCTypeSymbol`).  Its `index` operation is not
among the given sources. Modelled from the spec: "Indexing: the resolution
pass that turns a name/type reference into a pointer to its declaring
symbol" — the declaration the reference resolves to (if any) is carried as
`target`, and indexing copies it into the observable `resolved` reference
(`getReference()`). -/
structure TypeRefSym where
  name : String
  target : Option Nat
  resolved : Option Nat
  deriving Repr, DecidableEq

/-- Modelled from the spec: indexing a type reference resolves it, making
`getReference()` return the declaration it names (see `TypeRefSym`). -/
def typeRefIndex (t : TypeRefSym) : TypeRefSym :=
  { t with resolved := t.target }

/-- Which TS class a child symbol instantiates, as far as the children loop
of `UCStructSymbol.index` discriminates (`instanceof UCScriptStructSymbol`,
`instanceof UCEnumSymbol`). -/
inductive ChildKind where
  | scriptStructK
  | enumK
  | otherK
  deriving Repr, DecidableEq

/-- A declared child symbol of a structural symbol. -/
structure DeclSym where
  id : Nat
  name : String
  kind : ChildKind
  deriving Repr, DecidableEq

/-- Is this child a nested type (entered into the `types` side-table)? -/
def DeclSym.isNestedType (d : DeclSym) : Bool :=
  d.kind == ChildKind.scriptStructK || d.kind == ChildKind.enumK

/-- JS `String.prototype.toLowerCase`, modelled character-wise (the
library `String.toLower` is extensionally the same but does not reduce in
the kernel). -/
def lowerStr (s : String) : String := ⟨s.data.map Char.toLower⟩

/-- JS `Map.set` on an association list: an existing key keeps its position
and gets the new value; a new key is appended (insertion-order iteration). -/
def mapSet (m : List (String × Nat)) (k : String) (v : Nat) : List (String × Nat) :=
  if m.any (fun p => p.1 == k) then
    m.map (fun p => if p.1 == k then (k, v) else p)
  else m ++ [(k, v)]

/-- The state of a structural symbol that `index` reads and writes:
`extendsType`, the resolved `super` link, the intrusive `children` list
(head = most recently declared), the `types` side-table (declaration
order), and whether a script block is present. -/
structure StructIdx where
  extendsType : Option TypeRefSym
  superId : Option Nat
  children : List DeclSym
  typesTable : List (String × Nat)
  hasScriptBlock : Bool
  deriving Repr, DecidableEq

/-- `UCStructSymbol.addSymbol`: prepends the child to the intrusive
children list, and enters nested struct/enum symbols into the `types`
side-table keyed by lowercased name. -/
def addSymbolIdx (s : StructIdx) (d : DeclSym) : StructIdx :=
  { s with
    children := d :: s.children,
    typesTable :=
      if d.isNestedType then mapSet s.typesTable (lowerStr d.name) d.id
      else s.typesTable }

/-- Declares a list of children in declaration order (tree-build pass). -/
def declareAll (s : StructIdx) (ds : List DeclSym) : StructIdx :=
  ds.foldl addSymbolIdx s

/-- A structural symbol as freshly built: extends clause, no resolved
super, no children yet. -/
def emptyStructIdx (ext : Option TypeRefSym) (script : Bool) : StructIdx :=
  { extendsType := ext, superId := none, children := [],
    typesTable := [], hasScriptBlock := script }

/-- Observable steps of the index pass, in execution order. -/
inductive IdxEvent where
  | extendsIndexed
  | withinIndexed
  | dependsOnIndexed (i : Nat)
  | implementsIndexed (i : Nat)
  | childIndexed (id : Nat)
  | scriptBlockIndexed
  deriving Repr, DecidableEq

/-- `UCStructSymbol.index`: index `extendsType` and set `super` from its
resolved reference unless already set; then, when children exist, index the
`types` side-table entries first and then the remaining (non-type) children
by walking the intrusive list from its head; finally index the script
block.  Returns the updated state and the ordered trace of what was
indexed. -/
def structIndex (s : StructIdx) : StructIdx × List IdxEvent :=
  let step1 : StructIdx × List IdxEvent :=
    match s.extendsType with
    | none => (s, [])
    | some t =>
      let t' := typeRefIndex t
      ({ s with
          extendsType := some t',
          superId := match s.superId with
                     | some u => some u
                     | none => t'.resolved },
       [.extendsIndexed])
  let childEvents : List IdxEvent :=
    if step1.1.children.isEmpty then []
    else
      step1.1.typesTable.map (fun p => .childIndexed p.2)
      ++ (step1.1.children.filter (fun c => c.kind == ChildKind.otherK)).map
          (fun c => .childIndexed c.id)
  let scriptEvents : List IdxEvent :=
    if step1.1.hasScriptBlock then [.scriptBlockIndexed] else []
  (step1.1, step1.2 ++ childEvents ++ scriptEvents)

theorem declareAll_children (ds : List DeclSym) (s : StructIdx) :
    (declareAll s ds).children = ds.reverse ++ s.children := by
  induction ds generalizing s with
  | nil => simp [declareAll]
  | cons d rest ih =>
    show (declareAll (addSymbolIdx s d) rest).children = _
    rw [ih]
    simp [addSymbolIdx]

theorem declareAll_extends (ds : List DeclSym) (s : StructIdx) :
    (declareAll s ds).extendsType = s.extendsType
    ∧ (declareAll s ds).superId = s.superId
    ∧ (declareAll s ds).hasScriptBlock = s.hasScriptBlock := by
  induction ds generalizing s with
  | nil => exact ⟨rfl, rfl, rfl⟩
  | cons d rest ih =>
    simpa [declareAll, addSymbolIdx] using ih (addSymbolIdx s d)

theorem declareAll_typesTable (ds : List DeclSym) (s : StructIdx)
    (hnodup : ((ds.filter DeclSym.isNestedType).map (fun d => lowerStr d.name)).Nodup)
    (hfresh : ∀ d ∈ ds, d.isNestedType →
        ∀ p ∈ s.typesTable, p.1 ≠ lowerStr d.name) :
    (declareAll s ds).typesTable =
      s.typesTable ++ (ds.filter DeclSym.isNestedType).map (fun d => (lowerStr d.name, d.id)) := by
  induction ds generalizing s with
  | nil => simp [declareAll]
  | cons d rest ih =>
    by_cases hd : d.isNestedType
    · have hstep : (addSymbolIdx s d).typesTable = s.typesTable ++ [(lowerStr d.name, d.id)] := by
        have : s.typesTable.any (fun p => p.1 == lowerStr d.name) = false := by
          rw [List.any_eq_false]
          intro p hp
          simpa using hfresh d (by simp) hd p hp
        simp [addSymbolIdx, hd, mapSet, this]
      have hnodup' : ((rest.filter DeclSym.isNestedType).map (fun d => lowerStr d.name)).Nodup := by
        rw [List.filter_cons_of_pos hd, List.map_cons] at hnodup
        exact hnodup.of_cons
      have hfresh' : ∀ e ∈ rest, e.isNestedType →
          ∀ p ∈ (addSymbolIdx s d).typesTable, p.1 ≠ lowerStr e.name := by
        intro e he hne p hp
        rw [hstep, List.mem_append] at hp
        rcases hp with hp | hp
        · exact hfresh e (by simp [he]) hne p hp
        · rw [List.filter_cons_of_pos hd, List.map_cons] at hnodup
          have hdm : lowerStr d.name ∉ (rest.filter DeclSym.isNestedType).map
              (fun d => lowerStr d.name) := (List.nodup_cons.mp hnodup).1
          simp only [List.mem_singleton] at hp
          subst hp
          intro hcontra
          exact hdm (by
            rw [List.mem_map]
            exact ⟨e, List.mem_filter.mpr ⟨he, hne⟩, hcontra.symm⟩)
      calc (declareAll (addSymbolIdx s d) rest).typesTable
          = (addSymbolIdx s d).typesTable
              ++ (rest.filter DeclSym.isNestedType).map (fun d => (lowerStr d.name, d.id)) :=
            ih (addSymbolIdx s d) hnodup' hfresh'
        _ = _ := by
            rw [hstep, List.filter_cons_of_pos hd, List.map_cons]
            simp
    · have hstep : (addSymbolIdx s d).typesTable = s.typesTable := by
        simp [addSymbolIdx, hd]
      have hnodup' : ((rest.filter DeclSym.isNestedType).map (fun d => lowerStr d.name)).Nodup := by
        rwa [List.filter_cons_of_neg hd] at hnodup
      have hfresh' : ∀ e ∈ rest, e.isNestedType →
          ∀ p ∈ (addSymbolIdx s d).typesTable, p.1 ≠ lowerStr e.name := by
        intro e he hne p hp
        rw [hstep] at hp
        exact hfresh e (by simp [he]) hne p hp
      calc (declareAll (addSymbolIdx s d) rest).typesTable
          = (addSymbolIdx s d).typesTable
              ++ (rest.filter DeclSym.isNestedType).map (fun d => (lowerStr d.name, d.id)) :=
            ih (addSymbolIdx s d) hnodup' hfresh'
        _ = _ := by rw [hstep, List.filter_cons_of_neg hd]

/-- The concrete struct of the C6 counterexample: an extends clause, a
nested enum `E` (id 5) followed by two plain properties `a` (id 10) and `b`
(id 11) in that declaration order, and a script block. -/
def counterStruct : StructIdx :=
  declareAll (emptyStructIdx (some ⟨"Base", some 1, none⟩) true)
    [⟨5, "E", ChildKind.enumK⟩, ⟨10, "a", ChildKind.otherK⟩, ⟨11, "b", ChildKind.otherK⟩]

/-- C6 (counterexample): the non-type children are indexed in *reverse*
declaration order, because the intrusive children list is iterated from its
head, which holds the most recently declared child.  For properties
declared in the order `a` (10), `b` (11), the index trace visits 11 before
10 — not the declaration order the claim states. -/
theorem struct_index_children_reversed :
    (structIndex counterStruct).2 =
      [.extendsIndexed, .childIndexed 5, .childIndexed 11, .childIndexed 10,
       .scriptBlockIndexed]
    ∧ (structIndex counterStruct).2 ≠
      [.extendsIndexed, .childIndexed 5, .childIndexed 10, .childIndexed 11,
       .scriptBlockIndexed] := by
  exact ⟨rfl, by decide⟩

theorem structIndex_trace (s : StructIdx) :
    (structIndex s).2 =
      (if s.extendsType.isSome then [.extendsIndexed] else [])
      ++ (if s.children.isEmpty then [] else
            s.typesTable.map (fun p => IdxEvent.childIndexed p.2)
            ++ (s.children.filter (fun c => c.kind == ChildKind.otherK)).map
                (fun c => IdxEvent.childIndexed c.id))
      ++ (if s.hasScriptBlock then [.scriptBlockIndexed] else []) := by
  cases hext : s.extendsType with
  | none => simp [structIndex, hext]
  | some t => simp [structIndex, hext]

/-- C6 (amended): when a structural symbol is indexed, it first indexes its
`extendsType` and sets `super` from the resolved reference only if `super`
was not already set; then it indexes its nested types (structs/enums) in
declaration order before any other children; then the remaining children in
*reverse* declaration order (the intrusive children list is walked from its
newest-first head); and finally its own script block. -/
theorem struct_index_traversal_order :
    (∀ (ext : Option TypeRefSym) (script : Bool) (ds : List DeclSym),
      ((ds.filter DeclSym.isNestedType).map (fun d => lowerStr d.name)).Nodup →
        (structIndex (declareAll (emptyStructIdx ext script) ds)).2 =
          (if ext.isSome then [.extendsIndexed] else [])
          ++ (if ds.isEmpty then [] else
                (ds.filter DeclSym.isNestedType).map (fun d => .childIndexed d.id)
                ++ ((ds.filter (fun d => d.kind == ChildKind.otherK)).reverse).map
                    (fun d => .childIndexed d.id))
          ++ (if script then [.scriptBlockIndexed] else []))
    ∧ (∀ s : StructIdx,
        (structIndex s).1.superId =
          (match s.extendsType with
           | none => s.superId
           | some t =>
             match s.superId with
             | some u => some u
             | none => t.target)) := by
  constructor
  · intro ext script ds hnodup
    have hch := declareAll_children ds (emptyStructIdx ext script)
    have hty := declareAll_typesTable ds (emptyStructIdx ext script) hnodup
      (by intro d _ _ p hp; simp [emptyStructIdx] at hp)
    have hrest := declareAll_extends ds (emptyStructIdx ext script)
    rw [structIndex_trace, hrest.1, hrest.2.2, hch, hty]
    show _ ++ _ ++ _ = _ ++ _ ++ _
    refine congrArg₂ _ (congrArg₂ _ rfl ?_) rfl
    by_cases hds : ds.isEmpty
    · rw [List.isEmpty_iff.mp hds]
      simp [emptyStructIdx]
    · have hds' : ds ≠ [] := fun h => hds (by simp [h])
      have hne : (ds.reverse ++ (emptyStructIdx ext script).children).isEmpty = false := by
        simp [emptyStructIdx, hds']
      rw [hne, if_neg (by simp), if_neg (by simp [hds])]
      simp only [emptyStructIdx, List.nil_append, List.append_nil, List.map_map,
        List.filter_reverse, List.map_reverse]
      rfl
  · intro s
    cases hext : s.extendsType with
    | none => simp [structIndex, hext]
    | some t =>
      cases hsup : s.superId with
      | none => simp [structIndex, hext, hsup, typeRefIndex]
      | some u => simp [structIndex, hext, hsup, typeRefIndex]

/-- Witness for `struct_index_traversal_order`: the concrete struct of the
counterexample satisfies the nodup hypothesis and gives the amended
ordering. -/
theorem struct_index_traversal_order_witness :
    ((([⟨5, "E", ChildKind.enumK⟩, ⟨10, "a", ChildKind.otherK⟩,
        ⟨11, "b", ChildKind.otherK⟩] : List DeclSym).filter
          DeclSym.isNestedType).map (fun d => lowerStr d.name)).Nodup
    ∧ (structIndex (declareAll (emptyStructIdx (some ⟨"Base", some 1, none⟩) true)
          [⟨5, "E", ChildKind.enumK⟩, ⟨10, "a", ChildKind.otherK⟩,
           ⟨11, "b", ChildKind.otherK⟩])).2 =
        [.extendsIndexed, .childIndexed 5, .childIndexed 11, .childIndexed 10,
         .scriptBlockIndexed] := by
  refine ⟨by decide, ?_⟩
  rw [struct_index_traversal_order.1 (some ⟨"Base", some 1, none⟩) true
    [⟨5, "E", ChildKind.enumK⟩, ⟨10, "a", ChildKind.otherK⟩,
     ⟨11, "b", ChildKind.otherK⟩] (by decide)]
  rfl

/-! ## Idempotence of document-class indexing (UCDocumentClassSymbol.index)

`UCClassSymbol.index` first indexes `withinType` (unconditionally
overwriting `super` with its resolved reference), then `dependsOnTypes` and
`implementsTypes`, then runs the `UCStructSymbol.index` logic.
`UCDocumentClassSymbol.index` guards all of this behind the owning
`document` back-reference: once set, `index` returns immediately.
-/

/-- A class symbol's indexable state: its structural part plus the
class-only type references. -/
structure ClassIdx where
  struct : StructIdx
  withinType : Option TypeRefSym
  dependsOnTypes : List TypeRefSym
  implementsTypes : List TypeRefSym
  deriving Repr, DecidableEq

/-- `UCClassSymbol.index`: index `withinType` (overwriting `super` with the
within-class reference), then the dependsOn and implements type lists, then
`super.index` = the `UCStructSymbol.index` logic. -/
def classIndex (c : ClassIdx) : ClassIdx × List IdxEvent :=
  let step1 : ClassIdx × List IdxEvent :=
    match c.withinType with
    | none => (c, [])
    | some w =>
      let w' := typeRefIndex w
      ({ c with withinType := some w',
                struct := { c.struct with superId := w'.resolved } },
       [.withinIndexed])
  let c2 : ClassIdx :=
    { step1.1 with
      dependsOnTypes := step1.1.dependsOnTypes.map typeRefIndex,
      implementsTypes := step1.1.implementsTypes.map typeRefIndex }
  let r := structIndex c2.struct
  ({ c2 with struct := r.1 },
   step1.2 ++ (List.range c2.dependsOnTypes.length).map .dependsOnIndexed
     ++ (List.range c2.implementsTypes.length).map .implementsIndexed
     ++ r.2)

/-- A document-rooted class symbol: the class state plus the owning
`document` back-reference that guards re-entrant indexing. -/
structure DocClassIdx where
  document : Option Nat
  cls : ClassIdx
  deriving Repr, DecidableEq

/-- `UCDocumentClassSymbol.index`: `if (this.document) return;` — otherwise
record the owning document and run `UCClassSymbol.index`. -/
def docClassIndex (doc : Nat) (s : DocClassIdx) : DocClassIdx × List IdxEvent :=
  match s.document with
  | some _ => (s, [])
  | none =>
    let r := classIndex s.cls
    ({ document := some doc, cls := r.1 }, r.2)

/-- C7: indexing a document-rooted class symbol is idempotent and
self-guarding.  When the owning document reference is already set, `index`
performs no indexing at all and leaves the state unchanged; consequently a
second (or re-entrant) call after any first call is a no-op. -/
theorem docclass_index_idempotent :
    (∀ (doc : Nat) (s : DocClassIdx), s.document.isSome →
        docClassIndex doc s = (s, []))
    ∧ (∀ (doc1 doc2 : Nat) (s : DocClassIdx),
        docClassIndex doc2 (docClassIndex doc1 s).1 = ((docClassIndex doc1 s).1, [])) := by
  constructor
  · intro doc s hset
    obtain ⟨d, hd⟩ := Option.isSome_iff_exists.mp hset
    simp [docClassIndex, hd]
  · intro doc1 doc2 s
    cases hd : s.document with
    | some d => simp [docClassIndex, hd]
    | none => simp [docClassIndex, hd]

/-- Witness for `docclass_index_idempotent`: a class already owned by
document `3` is untouched by a later `index` call, and re-indexing a fresh
class is a no-op the second time. -/
theorem docclass_index_idempotent_witness :
    ((DocClassIdx.mk (some 3)
        (ClassIdx.mk (emptyStructIdx none false) none [] [])).document.isSome
      ∧ docClassIndex 5 (DocClassIdx.mk (some 3)
          (ClassIdx.mk (emptyStructIdx none false) none [] []))
        = (DocClassIdx.mk (some 3) (ClassIdx.mk (emptyStructIdx none false) none [] []), []))
    ∧ docClassIndex 9 (docClassIndex 5 (DocClassIdx.mk none
        (ClassIdx.mk (emptyStructIdx none false) none [] []))).1
      = ((docClassIndex 5 (DocClassIdx.mk none
          (ClassIdx.mk (emptyStructIdx none false) none [] []))).1, []) := by
  refine ⟨⟨by decide, ?_⟩, ?_⟩
  · exact docclass_index_idempotent.1 5
      (DocClassIdx.mk (some 3) (ClassIdx.mk (emptyStructIdx none false) none [] []))
      (by decide)
  · exact docclass_index_idempotent.2 5 9
      (DocClassIdx.mk none (ClassIdx.mk (emptyStructIdx none false) none [] []))

/-! ## Member lookup over the symbol graph (UCStructSymbol.findSymbol /
findSuperSymbol, UCMemberExpression.index)

`findSymbol` walks the children list matching lowercased names, descending
into child enums to also match enum members.  `findSuperSymbol` first
returns the struct itself when the id equals its own lowercased name, then
tries `findSymbol`, then the `super` chain (never from inside a method),
then — for a method or state — re-enters its outer struct.
`UCMemberExpression.index` for a bare reference resolves
`context.findSuperSymbol(id) || getEnumMember(id)`.
-/

/-- Which TS class a symbol in the graph instantiates, as far as the
`instanceof` checks of `findSymbol`/`findSuperSymbol` discriminate. -/
inductive SymKind where
  | classSym
  | scriptStruct
  | enumSym
  | stateSym
  | methodSym
  | propSym
  | enumMemberSym
  deriving Repr, DecidableEq

/-- Subclasses of `UCStructSymbol`. -/
def isStructKind : SymKind → Bool
  | .classSym | .scriptStruct | .enumSym | .stateSym | .methodSym => true
  | _ => false

/-- One symbol of the graph: written name, TS class, intrusive children
list (head = newest declared, each entry an index into the environment),
resolved `super` link, and `outer` back-reference. -/
structure SymData where
  name : String
  kind : SymKind
  children : List Nat
  superId : Option Nat
  outerId : Option Nat
  deriving Repr, DecidableEq

/-- The children loop of `UCStructSymbol.findSymbol`: match each child by
lowercased name; a child enum is additionally searched for its members
(`child.findSymbol(id)`), through the supplied `enumSearch`. -/
def findSymbolLoop (env : List SymData)
    (enumSearch : List Nat → String → Option Nat) : List Nat → String → Option Nat
  | [], _ => none
  | cid :: rest, id =>
    match env.get? cid with
    | none => findSymbolLoop env enumSearch rest id
    | some child =>
      if lowerStr child.name == id then some cid
      else
        match (if child.kind == SymKind.enumSym then enumSearch child.children id
               else none) with
        | some s => some s
        | none => findSymbolLoop env enumSearch rest id

/-- `UCStructSymbol.findSymbol` over a list of child indices.  The `fuel`
bounds nesting through enum children so the walk terminates on arbitrary
graphs (real data nests at most one level: enum members inside an enum). -/
def findSymbolList (env : List SymData) : Nat → List Nat → String → Option Nat
  | 0 => fun _ _ => none
  | fuel + 1 => findSymbolLoop env (findSymbolList env fuel)

/-- `UCStructSymbol.findSuperSymbol`: return the struct itself when `id`
equals its own lowercased name; otherwise try its own children
(`findSymbol`); otherwise climb the `super` chain — but never from inside a
method; otherwise, for a method or state whose `outer` is a structural
symbol, re-enter the outer struct.  The `fuel` bounds the climb so the walk
terminates on arbitrary (possibly cyclic) graphs. -/
def findSuperSymbol (env : List SymData) : Nat → Nat → String → Option Nat
  | 0, _, _ => none
  | fuel + 1, sid, id =>
    match env.get? sid with
    | none => none
    | some s =>
      if id == lowerStr s.name then some sid
      else
        match findSymbolList env (fuel + 1) s.children id with
        | some c => some c
        | none =>
          match (match s.superId, s.kind == SymKind.methodSym with
                 | some sup, false => findSuperSymbol env fuel sup id
                 | _, _ => none) with
          | some c => some c
          | none =>
            if s.kind == SymKind.methodSym || s.kind == SymKind.stateSym then
              match s.outerId with
              | some o =>
                match env.get? o with
                | some od =>
                  if isStructKind od.kind then findSuperSymbol env fuel o id else none
                | none => none
              | none => none
            else none

/-- Modelled from the spec: the process-wide enum-member table
(`setEnumMember`/`getEnumMember` of indexer.ts are not among the given
sources) — "a global enum-member table lookup (bare enum member names are
visible unqualified in expression context)"; an association list keyed by
lowercased member name. -/
def getEnumMember (tbl : List (String × Nat)) (id : String) : Option Nat :=
  (tbl.find? (fun p => p.1 == id)).map (fun p => p.2)

/-- The bare-member path of `UCMemberExpression.index`:
`context.findSuperSymbol(id) || getEnumMember(id)`. -/
def memberResolve (env : List SymData) (tbl : List (String × Nat))
    (fuel : Nat) (contextId : Nat) (id : String) : Option Nat :=
  match findSuperSymbol env fuel contextId id with
  | some s => some s
  | none => getEnumMember tbl id

theorem findSuperSymbol_eq (env : List SymData) (fuel sid : Nat) (id : String)
    (s : SymData) (hs : env.get? sid = some s) :
    findSuperSymbol env (fuel + 1) sid id =
      if id == lowerStr s.name then some sid
      else
        match findSymbolList env (fuel + 1) s.children id with
        | some c => some c
        | none =>
          match (match s.superId, s.kind == SymKind.methodSym with
                 | some sup, false => findSuperSymbol env fuel sup id
                 | _, _ => none) with
          | some c => some c
          | none =>
            if s.kind == SymKind.methodSym || s.kind == SymKind.stateSym then
              match s.outerId with
              | some o =>
                match env.get? o with
                | some od =>
                  if isStructKind od.kind then findSuperSymbol env fuel o id else none
                | none => none
              | none => none
            else none := by
  simp only [findSuperSymbol, hs]

/-- The C1 counterexample graph: class `B` (index 0) with one child
property also named `B` (index 1). -/
def envSelfName : List SymData :=
  [⟨"B", .classSym, [1], none, none⟩,
   ⟨"B", .propSym, [], none, some 0⟩]

/-- C1 (counterexample): resolution does *not* start at the current
struct's own children — `findSuperSymbol` first compares the id against the
struct's own name and returns the struct itself.  In `envSelfName` the
member `b` matches child 1 by case-insensitive name, yet `findSuperSymbol`
returns the class (index 0) itself. -/
theorem member_lookup_selfname_precedes_children :
    findSymbolList envSelfName 5 [1] "b" = some 1
    ∧ findSuperSymbol envSelfName 5 0 "b" = some 0
    ∧ (0 : Nat) ≠ 1 := by
  refine ⟨by rfl, by rfl, by decide⟩

/-- C1 (amended): for a bare member reference indexed in a struct context,
resolution first returns the current struct itself when the name equals the
struct's own (case-insensitive) name — even when a child of that name
exists; otherwise it climbs, stopping at the first match:
(i) the current struct's own children (by case-insensitive name), then
(ii) the superclass chain via repeated `super` links (one conjunct per
link, applicable repeatedly; never taken from inside a method), then
(iii) when the current scope is a method or state, a re-entrant search of
its outer struct — the whole lookup *equals* the outer struct's own search,
for a method once its own children fail, and for a state once its own
children and its state-super chain fail — then
(iv) a global enum-member table lookup.  In particular, for a class
`B extends A`, indexing `B` sets `B.super` to `A`'s resolved symbol, and
`B.findSuperSymbol(x)` returns `A`'s member `x` whenever `B` declares no
member named `x` and `x` names neither `B` nor `A` themselves. -/
theorem member_resolution_climb :
    (∀ (env : List SymData) (fuel sid : Nat) (id : String) (s : SymData),
      env.get? sid = some s → id = lowerStr s.name →
        findSuperSymbol env (fuel + 1) sid id = some sid)
    ∧ (∀ (env : List SymData) (tbl : List (String × Nat)) (fuel b : Nat)
        (B : SymData) (x : String) (c : Nat),
      env.get? b = some B → x ≠ lowerStr B.name →
      findSymbolList env (fuel + 1) B.children x = some c →
        findSuperSymbol env (fuel + 1) b x = some c
        ∧ memberResolve env tbl (fuel + 1) b x = some c)
    ∧ (∀ (env : List SymData) (tbl : List (String × Nat)) (fuel b a : Nat)
        (B : SymData) (x : String) (m : Nat),
      env.get? b = some B → x ≠ lowerStr B.name →
      B.kind ≠ SymKind.methodSym → B.superId = some a →
      findSymbolList env (fuel + 1) B.children x = none →
      findSuperSymbol env fuel a x = some m →
        findSuperSymbol env (fuel + 1) b x = some m
        ∧ memberResolve env tbl (fuel + 1) b x = some m)
    ∧ (∀ (env : List SymData) (tbl : List (String × Nat)) (fuel b a : Nat)
        (B A : SymData) (x : String) (m : Nat),
      env.get? b = some B → x ≠ lowerStr B.name →
      B.kind ≠ SymKind.methodSym → B.superId = some a →
      env.get? a = some A → x ≠ lowerStr A.name →
      findSymbolList env (fuel + 1 + 1) B.children x = none →
      findSymbolList env (fuel + 1) A.children x = some m →
        findSuperSymbol env (fuel + 1 + 1) b x = some m
        ∧ memberResolve env tbl (fuel + 1 + 1) b x = some m)
    ∧ (∀ (env : List SymData) (fuel sid : Nat) (x : String) (M : SymData)
        (o : Nat) (od : SymData),
      env.get? sid = some M → M.kind = SymKind.methodSym →
      x ≠ lowerStr M.name →
      findSymbolList env (fuel + 1) M.children x = none →
      M.outerId = some o → env.get? o = some od → isStructKind od.kind = true →
        findSuperSymbol env (fuel + 1) sid x = findSuperSymbol env fuel o x)
    ∧ (∀ (env : List SymData) (fuel sid : Nat) (x : String) (S : SymData)
        (o : Nat) (od : SymData),
      env.get? sid = some S → S.kind = SymKind.stateSym →
      x ≠ lowerStr S.name →
      findSymbolList env (fuel + 1) S.children x = none →
      (S.superId = none
        ∨ ∃ sup, S.superId = some sup ∧ findSuperSymbol env fuel sup x = none) →
      S.outerId = some o → env.get? o = some od → isStructKind od.kind = true →
        findSuperSymbol env (fuel + 1) sid x = findSuperSymbol env fuel o x)
    ∧ (∀ (env : List SymData) (tbl : List (String × Nat)) (fuel b : Nat) (x : String),
      findSuperSymbol env fuel b x = none →
        memberResolve env tbl fuel b x = getEnumMember tbl x)
    ∧ (∀ t : TypeRefSym,
        (structIndex (emptyStructIdx (some t) false)).1.superId = t.target) := by
  refine ⟨?_, ?_, ?_, ?_, ?_, ?_, ?_, ?_⟩
  · intro env fuel sid id s hs hid
    rw [findSuperSymbol_eq env fuel sid id s hs]
    have hcond : (id == lowerStr s.name) = true := by simp [hid]
    simp [hcond]
  · intro env tbl fuel b B x c hB hx hc
    have hcond : (x == lowerStr B.name) = false := by simpa using hx
    have hsuper : findSuperSymbol env (fuel + 1) b x = some c := by
      rw [findSuperSymbol_eq env fuel b x B hB, hcond]
      simp [hc]
    exact ⟨hsuper, by simp [memberResolve, hsuper]⟩
  · intro env tbl fuel b a B x m hB hx hBk hsup hown hAsuper
    have hcond : (x == lowerStr B.name) = false := by simpa using hx
    have hBknd : (B.kind == SymKind.methodSym) = false := by simpa using hBk
    have hsuper : findSuperSymbol env (fuel + 1) b x = some m := by
      rw [findSuperSymbol_eq env fuel b x B hB, hcond]
      simp [hown, hsup, hBknd, hAsuper]
    exact ⟨hsuper, by simp [memberResolve, hsuper]⟩
  · intro env tbl fuel b a B A x m hB hxB hBk hsup hA hxA hown hAm
    have hcondB : (x == lowerStr B.name) = false := by simpa using hxB
    have hcondA : (x == lowerStr A.name) = false := by simpa using hxA
    have hBknd : (B.kind == SymKind.methodSym) = false := by simpa using hBk
    have hAsuper : findSuperSymbol env (fuel + 1) a x = some m := by
      rw [findSuperSymbol_eq env fuel a x A hA, hcondA]
      simp [hAm]
    have hsuper : findSuperSymbol env (fuel + 1 + 1) b x = some m := by
      rw [findSuperSymbol_eq env (fuel + 1) b x B hB, hcondB]
      simp [hown, hsup, hBknd, hAsuper]
    exact ⟨hsuper, by simp [memberResolve, hsuper]⟩
  · intro env fuel sid x M o od hM hk hx hown ho hod hstruct
    have hcond : (x == lowerStr M.name) = false := by simpa using hx
    have hkb : (M.kind == SymKind.methodSym) = true := by simp [hk]
    have hod' : env[o]? = some od := by
      rw [← List.get?_eq_getElem?]
      exact hod
    rw [findSuperSymbol_eq env fuel sid x M hM, hcond]
    cases hsup : M.superId with
    | none => simp [hown, hsup, hkb, ho, hod', hstruct]
    | some sup => simp [hown, hsup, hkb, ho, hod', hstruct]
  · intro env fuel sid x S o od hS hk hx hown hsupx ho hod hstruct
    have hcond : (x == lowerStr S.name) = false := by simpa using hx
    have hkm : (S.kind == SymKind.methodSym) = false := by simp [hk]
    have hks : (S.kind == SymKind.stateSym) = true := by simp [hk]
    have hod' : env[o]? = some od := by
      rw [← List.get?_eq_getElem?]
      exact hod
    rw [findSuperSymbol_eq env fuel sid x S hS, hcond]
    rcases hsupx with hsup | ⟨sup, hsup, hsupnone⟩
    · simp [hown, hsup, hkm, hks, ho, hod', hstruct]
    · simp [hown, hsup, hkm, hks, hsupnone, ho, hod', hstruct]
  · intro env tbl fuel b x hnone
    simp [memberResolve, hnone]
  · intro t
    rfl

/-- The symbol graph used by the C1 witness: class `A` (index 0) declares a
method `f` (index 1) and a property `x` (index 2); `f`'s `outer` is `A`. -/
def envMethodOuter : List SymData :=
  [⟨"A", SymKind.classSym, [2, 1], none, none⟩,
   ⟨"f", SymKind.methodSym, [], none, some 0⟩,
   ⟨"x", SymKind.propSym, [], none, some 0⟩]

/-- Witness for `member_resolution_climb`: in `envMethodOuter`, looking up
`x` from inside method `f` re-enters the outer class `A` (the whole lookup
equals `A`'s own search) and lands on `A`'s property `x`; and in the
two-class graph `B extends A` where only `A` declares a property `x`,
looking `x` up from `B` finds `A`'s member. -/
theorem member_resolution_climb_witness :
    envMethodOuter.get? 1 = some ⟨"f", SymKind.methodSym, [], none, some 0⟩
    ∧ findSuperSymbol envMethodOuter 4 1 "x" = findSuperSymbol envMethodOuter 3 0 "x"
    ∧ findSuperSymbol envMethodOuter 3 0 "x" = some 2
    ∧ findSuperSymbol
        [⟨"B", SymKind.classSym, [], some 1, none⟩,
         ⟨"A", SymKind.classSym, [2], none, none⟩,
         ⟨"x", SymKind.propSym, [], none, some 1⟩] 5 0 "x" = some 2 := by
  refine ⟨by rfl, ?_, by rfl, ?_⟩
  · exact member_resolution_climb.2.2.2.2.1 envMethodOuter 3 1 "x"
      ⟨"f", SymKind.methodSym, [], none, some 0⟩ 0
      ⟨"A", SymKind.classSym, [2, 1], none, none⟩
      (by rfl) (by rfl) (by decide) (by rfl) (by rfl) (by rfl) (by rfl)
  · exact (member_resolution_climb.2.2.2.1
      [⟨"B", SymKind.classSym, [], some 1, none⟩,
       ⟨"A", SymKind.classSym, [2], none, none⟩,
       ⟨"x", SymKind.propSym, [], none, some 1⟩] [] 3 0 1
      ⟨"B", SymKind.classSym, [], some 1, none⟩
      ⟨"A", SymKind.classSym, [2], none, none⟩ "x" 2
      (by rfl) (by decide) (by decide) (by rfl) (by rfl) (by decide)
      (by rfl) (by rfl)).1

/-! ## Resolution failures: silent at index time, reported at analyze time
(UCMemberExpression.index / analyze, DocumentAnalyzer.visitObjectType)

`UCMemberExpression.index` only assigns the reference when the lookup
succeeds; it contains no throw and pushes no diagnostic node.
`UCMemberExpression.analyze` pushes an "inaccessible type" error when its
context is a resolved non-struct symbol, and otherwise an
`UnrecognizedFieldNode` — keyed to the reference's own range — exactly when
the reference is still unset.  `DocumentAnalyzer.visitObjectType` reports
`TYPE_0_NOT_FOUND` for an unresolved type reference, gated on
`config.checkTypes`.
-/

/-- A `UCSymbolReference`: the written name, its own source range (modelled
as a token offset), and the resolved reference (unset until `index`
succeeds). -/
structure SymbolRefM where
  name : String
  range : Nat
  ref : Option Nat
  deriving Repr, DecidableEq

/-- Diagnostics relevant to reference resolution. -/
inductive MemberDiag where
  /-- `SemanticErrorNode` "'…' is an inaccessible type!" -/
  | inaccessibleType (range : Nat)
  /-- `UnrecognizedFieldNode` at the reference's own range. -/
  | unrecognizedField (range : Nat)
  /-- `TYPE_0_NOT_FOUND` at the reference's own range. -/
  | typeNotFound (range : Nat)
  deriving Repr, DecidableEq

/-- The context `UCMemberExpression.analyze` receives:
absent, a `UCStructSymbol`, or a resolved non-struct symbol (e.g. a
primitive type, passed by `UCPropertyAccessExpression.analyze`). -/
inductive AnalyzeCtx where
  | noCtx
  | structCtx (id : Nat)
  | nonStructCtx (id : Nat)
  deriving Repr, DecidableEq

/-- The bare-member path of `UCMemberExpression.index`: resolve
`context.findSuperSymbol(id) || getEnumMember(id)`; on success set the
reference, on failure leave it untouched.  The function is total (the
source contains no `throw`) and its second component is the list of
diagnostics pushed — always empty. -/
def memberExprIndex (env : List SymData) (tbl : List (String × Nat))
    (fuel ctxId : Nat) (r : SymbolRefM) : SymbolRefM × List MemberDiag :=
  match memberResolve env tbl fuel ctxId (lowerStr r.name) with
  | some s => ({ r with ref := some s }, [])
  | none => (r, [])

/-- `UCMemberExpression.analyze`: a resolved non-struct context is an
"inaccessible type" error; otherwise an unresolved reference is an
unrecognized-field error at the reference's own range. -/
def memberExprAnalyze (r : SymbolRefM) (ctx : AnalyzeCtx) : List MemberDiag :=
  match ctx with
  | .nonStructCtx _ => [.inaccessibleType r.range]
  | _ => if r.ref.isNone then [.unrecognizedField r.range] else []

/-- `DocumentAnalyzer.visitObjectType`: report `TYPE_0_NOT_FOUND` at the
reference's range when `config.checkTypes` is on and the reference did not
resolve. -/
def visitObjectTypeDiags (checkTypes : Bool) (r : SymbolRefM) : List MemberDiag :=
  if checkTypes && r.ref.isNone then [.typeNotFound r.range] else []

/-- C8 (counterexample): an unresolved member reference analyzed against a
resolved non-struct context (e.g. the member of `intVar.x`) produces only
the "inaccessible type" error — no unrecognized-field diagnostic — although
its target is unset; likewise an unresolved type reference produces no
diagnostic at all when `config.checkTypes` is off.  So "reports an
unrecognized type/field diagnostic exactly when the target is unset" fails
in the unset direction. -/
theorem member_unresolved_without_diagnostic :
    (SymbolRefM.mk "x" 42 none).ref = none
    ∧ memberExprAnalyze (SymbolRefM.mk "x" 42 none) (.nonStructCtx 3)
        = [.inaccessibleType 42]
    ∧ MemberDiag.unrecognizedField 42
        ∉ memberExprAnalyze (SymbolRefM.mk "x" 42 none) (.nonStructCtx 3)
    ∧ visitObjectTypeDiags false (SymbolRefM.mk "T" 7 none) = [] := by
  exact ⟨rfl, rfl, by decide, rfl⟩

/-- C8 (amended): a member-reference resolution failure during the index
pass never throws and never emits a diagnostic — it only leaves the
reference's target unset (a success sets exactly the target) — and the
analyze pass then reports an unrecognized-field diagnostic, keyed to the
reference's own source range, exactly when the target is still unset,
provided the analysis context is a struct or absent (a resolved non-struct
context yields an inaccessible-type error instead); an unresolved type
reference is likewise reported iff `config.checkTypes` is enabled. -/
theorem member_resolution_failure_handling :
    (∀ (env : List SymData) (tbl : List (String × Nat)) (fuel ctxId : Nat)
        (r : SymbolRefM),
        (memberExprIndex env tbl fuel ctxId r).2 = []
      ∧ (memberResolve env tbl fuel ctxId (lowerStr r.name) = none →
          (memberExprIndex env tbl fuel ctxId r).1 = r)
      ∧ (∀ s, memberResolve env tbl fuel ctxId (lowerStr r.name) = some s →
          (memberExprIndex env tbl fuel ctxId r).1 = { r with ref := some s }))
    ∧ (∀ (r : SymbolRefM) (ctx : AnalyzeCtx),
        (∀ i, ctx ≠ AnalyzeCtx.nonStructCtx i) →
        (MemberDiag.unrecognizedField r.range ∈ memberExprAnalyze r ctx ↔ r.ref = none)
      ∧ (r.ref = none → memberExprAnalyze r ctx = [.unrecognizedField r.range]))
    ∧ (∀ r : SymbolRefM,
        MemberDiag.typeNotFound r.range ∈ visitObjectTypeDiags true r ↔ r.ref = none) := by
  refine ⟨?_, ?_, ?_⟩
  · intro env tbl fuel ctxId r
    refine ⟨?_, ?_, ?_⟩
    · cases h : memberResolve env tbl fuel ctxId (lowerStr r.name) <;>
        simp [memberExprIndex, h]
    · intro h
      simp [memberExprIndex, h]
    · intro s h
      simp [memberExprIndex, h]
  · intro r ctx hctx
    cases ctx with
    | nonStructCtx i => exact absurd rfl (hctx i)
    | noCtx =>
      cases h : r.ref <;> simp [memberExprAnalyze, h]
    | structCtx i =>
      cases h : r.ref <;> simp [memberExprAnalyze, h]
  · intro r
    cases h : r.ref <;> simp [visitObjectTypeDiags, h]

/-- Witness for `member_resolution_failure_handling`: a concrete unresolved
reference in an empty class yields no diagnostic and no target at index
time, and exactly the unrecognized-field diagnostic at analyze time. -/
theorem member_resolution_failure_handling_witness :
    (memberExprIndex [⟨"A", SymKind.classSym, [], none, none⟩] [] 5 0
        (SymbolRefM.mk "x" 11 none)).2 = []
    ∧ (∀ i, AnalyzeCtx.structCtx 0 ≠ AnalyzeCtx.nonStructCtx i)
    ∧ (MemberDiag.unrecognizedField 11
        ∈ memberExprAnalyze (SymbolRefM.mk "x" 11 none) (AnalyzeCtx.structCtx 0)
        ↔ (SymbolRefM.mk "x" 11 none).ref = none) := by
  refine ⟨(member_resolution_failure_handling.1
      [⟨"A", SymKind.classSym, [], none, none⟩] [] 5 0 (SymbolRefM.mk "x" 11 none)).1,
    fun i => by simp, ?_⟩
  exact (member_resolution_failure_handling.2.1 (SymbolRefM.mk "x" 11 none)
    (AnalyzeCtx.structCtx 0) (fun i => by simp)).1

/-! ## Position queries (UCSymbol.getSymbolAtPos)

`UCSymbol.getSymbolAtPos` is the JS expression
`intersectsWithRange(position, this.getRange()) && this.getContainedSymbolAtPos(position) || this`:
the `&&` yields the contained lookup only when the position intersects the
symbol's range, and `|| this` falls back to the symbol itself whenever that
produced `undefined`.
-/

/-- A source range. Modelled from the spec: helpers.ts
`intersectsWithRange` is not among the given sources, so positions and
ranges are modelled one-dimensionally (token offsets) with closed-interval
containment as intersection. -/
structure URange where
  lo : Nat
  hi : Nat
  deriving Repr, DecidableEq

/-- Modelled from the spec: position-in-range test (see `URange`). -/
def intersectsWithRange (pos : Nat) (r : URange) : Bool :=
  r.lo ≤ pos && pos ≤ r.hi

mutual
/-- A symbol with its declared range and contained child symbols. -/
inductive USymbol where
  | mk (range : URange) (children : USymbolList)
/-- Children of a symbol (the contained symbols searched by the
`getContainedSymbolAtPos` override of structural symbols). -/
inductive USymbolList where
  | nil
  | cons (head : USymbol) (tail : USymbolList)
end

/-- The symbol's `getRange()`. -/
def USymbol.range : USymbol → URange
  | .mk r _ => r

/-- The symbol's contained children. -/
def USymbol.children : USymbol → USymbolList
  | .mk _ cs => cs

mutual
/-- `UCSymbol.getSymbolAtPos`:
`intersectsWithRange(position, this.getRange()) && this.getContainedSymbolAtPos(position) || this`. -/
def getSymbolAtPos (pos : Nat) : USymbol → Option USymbol
  | .mk r cs =>
    match (if intersectsWithRange pos r then getContainedSymbolAtPos pos cs else none) with
    | some c => some c
    | none => some (.mk r cs)
/-- The `getContainedSymbolAtPos` hook: the base class returns `undefined`;
structural symbols search their children via `getChildSymbolAtPos`, which
returns the first child (recursively) claiming the position. -/
def getContainedSymbolAtPos (pos : Nat) : USymbolList → Option USymbol
  | .nil => none
  | .cons c rest =>
    match getSymbolAtPos pos c with
    | some s => some s
    | none => getContainedSymbolAtPos pos rest
end

/-- C10: `UCSymbol.getSymbolAtPos` never returns `undefined`: when the
position intersects the symbol's range and a contained child symbol is
found there, that child is returned; in every other case — including a
position entirely outside the symbol's range — the symbol itself is
returned. -/
theorem getSymbolAtPos_never_undefined (pos : Nat) (s : USymbol) :
    (getSymbolAtPos pos s).isSome = true
    ∧ (intersectsWithRange pos s.range = false → getSymbolAtPos pos s = some s)
    ∧ (∀ c, intersectsWithRange pos s.range = true →
        getContainedSymbolAtPos pos s.children = some c →
        getSymbolAtPos pos s = some c)
    ∧ (intersectsWithRange pos s.range = true →
        getContainedSymbolAtPos pos s.children = none →
        getSymbolAtPos pos s = some s) := by
  obtain ⟨r, cs⟩ := s
  refine ⟨?_, ?_, ?_, ?_⟩
  · simp only [getSymbolAtPos]
    cases hif : (if intersectsWithRange pos r then getContainedSymbolAtPos pos cs else none) <;>
      simp
  · intro hmiss
    simp only [USymbol.range] at hmiss
    simp [getSymbolAtPos, hmiss]
  · intro c hhit hc
    simp only [USymbol.range] at hhit
    simp only [USymbol.children] at hc
    simp [getSymbolAtPos, hhit, hc]
  · intro hhit hnone
    simp only [USymbol.range] at hhit
    simp only [USymbol.children] at hnone
    simp [getSymbolAtPos, hhit, hnone]

/-- Witness for `getSymbolAtPos_never_undefined`: a childless symbol
spanning offsets 0-10 queried at position 20 (outside its range) returns
itself. -/
theorem getSymbolAtPos_never_undefined_witness :
    intersectsWithRange 20 (USymbol.mk ⟨0, 10⟩ .nil).range = false
    ∧ getSymbolAtPos 20 (USymbol.mk ⟨0, 10⟩ .nil) = some (USymbol.mk ⟨0, 10⟩ .nil) := by
  exact ⟨rfl, (getSymbolAtPos_never_undefined 20 (USymbol.mk ⟨0, 10⟩ .nil)).2.1 rfl⟩

end UCLS
